import Mathlib

/-!
Shallow embedding of `xonsh/prompt_toolkit_shell.py`: the prompt_toolkit
based xonsh shell.  The file models

* the session loop `PromptToolkitShell.cmdloop` as a state machine driven
  by a script of per-iteration inputs (each describing what the blocking
  read and the hooks do on that iteration),
* `setup_history` / `teardown_history` and the `__del__` teardown path,
* the style merge performed inside `_get_prompt_tokens_and_style`.

Python exceptions are modelled as explicit tagged outcomes; the ambient
configuration `builtins.__xonsh_env__` is an explicit `Env` value; the
process-wide exit flag `builtins.__xonsh_exit__` is a field of the loop
state.
-/

namespace PromptToolkitShell

/-- The exception classes relevant to the loop: `KeyboardInterrupt`,
`EOFError`, and any other (uncaught) exception class. -/
inductive Exc where
  | keyboardInterrupt
  | eofError
  | otherError
deriving DecidableEq, Repr

/-- Outcome of a Python call: a normal return value or a raised exception. -/
inductive Outcome (α : Type) where
  | ok (a : α)
  | exc (e : Exc)
deriving DecidableEq, Repr

/-- Observable events of one `cmdloop` run, in order of occurrence. -/
inductive Event where
  | printIntro (s : String)
  | readCall
  | histAppend (s : String)
  | emptylineCall
  | precmdCall (s : String)
  | defaultCall (s : String)
  | resetBuffer
deriving DecidableEq, Repr

/-- State of one session-loop run: the process-wide exit flag
`builtins.__xonsh_exit__`, whether the `while` loop has exited, the
in-memory history sequence of `self.history`, and the trace of events. -/
structure LoopState where
  exitFlag : Bool
  terminated : Bool
  history : List String
  events : List Event
deriving DecidableEq, Repr

/-- What the external collaborators do on one loop iteration: the result
of the blocking `get_input` call, of `self.emptyline()`, of
`self.precmd(line)` (its transformed line when it returns), of
`self.default(line)`, and whether the executed command sets the
process-wide exit flag. -/
structure IterInput where
  read : Outcome String
  emptyline : Outcome Unit
  precmd : Outcome String
  defaultOut : Outcome Unit
  defaultSetsExit : Bool
deriving DecidableEq, Repr

/-- The `try:` block of one `cmdloop` iteration: call `get_input`; on a
returned line, dispatch to `self.emptyline()` or to `self.precmd` then
`self.default`.  Returns the state together with the exception the block
raises, if any.

Modelled from the spec: `get_input` itself is external (prompt_toolkit is
not part of this repository); per the spec the editing widget appends each
non-empty submitted line to the history store before returning it, and an
empty line is not appended. -/
def tryBody (i : IterInput) (st : LoopState) : LoopState × Option Exc :=
  let st1 := { st with events := st.events ++ [Event.readCall] }
  match i.read with
  | .exc e => (st1, some e)
  | .ok line =>
    if line = "" then
      let st2 := { st1 with events := st1.events ++ [Event.emptylineCall] }
      match i.emptyline with
      | .ok _ => (st2, none)
      | .exc e => (st2, some e)
    else
      let st2 := { st1 with history := st1.history ++ [line],
                            events := st1.events ++ [Event.histAppend line] }
      let st3 := { st2 with events := st2.events ++ [Event.precmdCall line] }
      match i.precmd with
      | .exc e => (st3, some e)
      | .ok line2 =>
        let st4 := { st3 with events := st3.events ++ [Event.defaultCall line2],
                              exitFlag := st3.exitFlag || i.defaultSetsExit }
        match i.defaultOut with
        | .ok _ => (st4, none)
        | .exc e => (st4, some e)

/-- One `cmdloop` iteration: the `try:` block followed by the
`except KeyboardInterrupt: self.reset_buffer()` and
`except EOFError: break` clauses.  Any other exception propagates. -/
def runIter (i : IterInput) (st : LoopState) : LoopState × Option Exc :=
  match tryBody i st with
  | (st2, none) => (st2, none)
  | (st2, some .keyboardInterrupt) =>
      ({ st2 with events := st2.events ++ [Event.resetBuffer] }, none)
  | (st2, some .eofError) => ({ st2 with terminated := true }, none)
  | (st2, some .otherError) => (st2, some .otherError)

/-- The `while not builtins.__xonsh_exit__:` loop, driven by a script of
iteration inputs.  An exhausted script leaves the loop still running
(blocked in the next read).  The exit flag is re-checked before every
iteration. -/
def cmdloopAux : List IterInput → LoopState → LoopState × Option Exc
  | [], st =>
      if st.terminated then (st, none)
      else if st.exitFlag then ({ st with terminated := true }, none)
      else (st, none)
  | i :: rest, st =>
      if st.terminated then (st, none)
      else if st.exitFlag then ({ st with terminated := true }, none)
      else
        match runIter i st with
        | (st2, some e) => (st2, some e)
        | (st2, none) =>
            if st2.terminated then (st2, none) else cmdloopAux rest st2

/-- `PromptToolkitShell.cmdloop`: print the intro if it is truthy (a
non-`None`, non-empty string), then enter the read loop. -/
def cmdloop (intro : Option String) (inputs : List IterInput)
    (st : LoopState) : LoopState × Option Exc :=
  let st1 := match intro with
    | some s => if s = "" then st else
        { st with events := st.events ++ [Event.printIntro s] }
    | none => st
  cmdloopAux inputs st1

/-- Loop state at session start: exit flag clear, loop running, history
as loaded by `setup_history`, no events yet. -/
def initState (hist : List String) : LoopState :=
  { exitFlag := false, terminated := false, history := hist, events := [] }

/-! ## History setup and teardown -/

/-- A file-system error raised by a history-file operation:
`PermissionError` or any other `OSError`-like class. -/
inductive FsError where
  | permissionError
  | otherError
deriving DecidableEq, Repr

/-- The ambient configuration `builtins.__xonsh_env__`, restricted to the
keys this module reads.  `histSize` mirrors `XONSH_HISTORY_SIZE`, a pair
whose first component is the numeric bound. -/
structure Env where
  histFile : String
  histSize : Nat × String
deriving DecidableEq, Repr

/-- The in-memory history object (`LimitedFileHistory`): the ordered
sequence of past input lines. -/
structure HistoryObj where
  strings : List String
deriving DecidableEq, Repr

/-- Result of `setup_history`: the history object returned (when no
exception propagates), the warnings emitted, and the exception that
propagates out, if any. -/
structure SetupResult where
  history : Option HistoryObj
  warnings : List String
  raised : Option FsError
deriving DecidableEq, Repr

/-- `setup_history`: create an empty history object, try to read the
history file into it, and catch only `PermissionError` (emitting a
warning and returning the still-empty object).

Modelled from the spec: `LimitedFileHistory.read_history_file` is not part
of this repository; per the spec, `load` fills the sequence with the
persisted entries oldest first, an absent file yields an empty sequence
without raising, and a permission failure raises before any entry is
added.  Its outcome is therefore passed in as `readOutcome`. -/
def setup_history (env : Env) (readOutcome : Except FsError (List String)) :
    SetupResult :=
  match readOutcome with
  | .ok lines => ⟨some ⟨lines⟩, [], none⟩
  | .error .permissionError =>
      ⟨some ⟨[]⟩, ["do not have read permissions for " ++ env.histFile], none⟩
  | .error e => ⟨none, [], some e⟩

/-- One call to `LimitedFileHistory.save_history_to_file(path, max_size)`,
recording the arguments it was invoked with. -/
structure SaveCall where
  path : String
  maxSize : Nat
deriving DecidableEq, Repr

/-- Result of `teardown_history` (or of the `__del__` path): the save
calls made, the in-memory history object afterwards, the warnings
emitted, and the exception that propagates out, if any. -/
structure TeardownResult where
  saveCalls : List SaveCall
  history : HistoryObj
  warnings : List String
  raised : Option FsError
deriving DecidableEq, Repr

/-- `teardown_history`: read `XONSH_HISTORY_SIZE` and `XONSH_HISTORY_FILE`
from the ambient configuration at call time, invoke
`save_history_to_file(hfile, hsize)`, and catch only `PermissionError`
(emitting a warning).

Modelled from the spec: `save_history_to_file` is not part of this
repository; per the spec, `save` writes the most-recent `max_size`
entries to the file and never mutates the in-memory sequence, and a
permission failure raises without touching the in-memory sequence.  Its
outcome is passed in as `saveRaises`. -/
def teardown_history (env : Env) (h : HistoryObj)
    (saveRaises : Option FsError) : TeardownResult :=
  let call : SaveCall := ⟨env.histFile, env.histSize.1⟩
  match saveRaises with
  | none => ⟨[call], h, [], none⟩
  | some .permissionError =>
      ⟨[call], h, ["do not have write permissions for " ++ env.histFile], none⟩
  | some e => ⟨[call], h, [], some e⟩

/-- `PromptToolkitShell.__del__`: if `self.history is not None`, run
`teardown_history` on it; otherwise do nothing. -/
def del_shell (history : Option HistoryObj) (env : Env)
    (saveRaises : Option FsError) : TeardownResult :=
  match history with
  | some h => teardown_history env h saveRaises
  | none => ⟨[], ⟨[]⟩, [], none⟩

/-- A session lifetime around the loop: run `cmdloop`, then destroy the
shell object (`__del__`), which performs the history save. -/
def runSessionAndDestroy (intro : Option String) (inputs : List IterInput)
    (hist0 : List String) (env : Env) (saveRaises : Option FsError) :
    (LoopState × Option Exc) × TeardownResult :=
  let r := cmdloop intro inputs (initState hist0)
  (r, del_shell (some ⟨r.1.history⟩) env saveRaises)

/-- Loading with one configuration and tearing down with another
(`XONSH_HISTORY_SIZE` may change mid-session): `setup_history` under
`loadEnv`, then `teardown_history` under `saveEnv`. -/
def load_then_save (loadEnv saveEnv : Env) (fileLines : List String)
    (saveRaises : Option FsError) : TeardownResult :=
  match (setup_history loadEnv (.ok fileLines)).history with
  | some h => teardown_history saveEnv h saveRaises
  | none => ⟨[], ⟨[]⟩, [], none⟩

/-! ## Prompt tokens and style resolution -/

/-- A pygments token identifier (`Token.X.Y`), by its dotted name. -/
abbrev Tok := String

/-- A style table: partial mapping from token to style string. -/
abbrev StyleDict := Tok → Option String

/-- Lookup in an association list where a later binding for the same key
wins, matching a Python dict built left to right. -/
def lookupLast : List (Tok × String) → Tok → Option String
  | [], _ => none
  | (k, v) :: rest, t =>
      match lookupLast rest t with
      | some w => some w
      | none => if k = t then some v else none

/-- `dict.update`: every key of `u` overrides or extends `d`;
keys of `d` not named by `u` are untouched. -/
def dictUpdate (d : StyleDict) (u : List (Tok × String)) : StyleDict :=
  fun t =>
    match lookupLast u t with
    | some v => some v
    | none => d t

/-- The built-in `CustomStyle.styles` literal of
`_get_prompt_tokens_and_style`. -/
def builtinStyles : List (Tok × String) :=
  [ ("Menu.Completions.Completion.Current", "bg:#00aaaa #000000"),
    ("Menu.Completions.Completion", "bg:#008888 #ffffff"),
    ("Menu.Completions.Meta.Current", "bg:#00aaaa #000000"),
    ("Menu.Completions.Meta", "bg:#00aaaa #ffffff"),
    ("Menu.Completions.ProgressButton", "bg:#003333"),
    ("Menu.Completions.ProgressBar", "bg:#00aaaa"),
    ("Toolbar", "bg:#222222 #cccccc"),
    ("Scrollbar", "bg:#00aaaa"),
    ("Scrollbar.Button", "bg:#003333"),
    ("Toolbar.Off", "bg:#222222 #696969"),
    ("Toolbar.On", "bg:#222222 #ffffff"),
    ("Toolbar.Search", "noinherit bold"),
    ("Toolbar.Search.Text", "nobold"),
    ("Toolbar.System", "noinherit bold"),
    ("Toolbar.Arg", "noinherit bold"),
    ("Toolbar.Arg.Text", "nobold"),
    ("AutoSuggestion", "#666666"),
    ("Aborted", "#888888") ]

/-- The built-in default style table (layer 1). -/
def baseStyleDict : StyleDict := fun t => lookupLast builtinStyles t

/-- The effective style table built by the `CustomStyle` class body:
start from `builtinStyles`, `update` with the per-prompt token styles
(`zip tokens cstyles`, a dict comprehension where a later duplicate key
wins), then, when `PROMPT_TOOLKIT_STYLES` is configured, `update` with
the user mapping. -/
def customStyle (tokens : List Tok) (cstyles : List String)
    (userstyle : Option (List (Tok × String))) : StyleDict :=
  let s := dictUpdate baseStyleDict (List.zip tokens cstyles)
  match userstyle with
  | none => s
  | some u => dictUpdate s u

/-- The `get_tokens` closure returned by `_get_prompt_tokens_and_style`:
it ignores its `cli` argument and returns `list(zip(tokens, strings))`
over the lists captured at construction time. -/
def get_tokens {α : Type} (tokens : List Tok) (strings : List String)
    (_cli : α) : List (Tok × String) :=
  List.zip tokens strings

/-- `PromptToolkitShell._get_prompt_tokens_and_style`: given the triple
produced by `format_prompt_for_prompt_toolkit(self.prompt)` and the
current `PROMPT_TOOLKIT_STYLES` configuration, return the `get_tokens`
closure and the effective style table. -/
def get_prompt_tokens_and_style {α : Type} (token_names cstyles strings :
    List String) (userstyle : Option (List (Tok × String))) :
    (α → List (Tok × String)) × StyleDict :=
  (get_tokens token_names strings, customStyle token_names cstyles userstyle)

/-! ## Helper lemmas -/

/-- Tests whether an event is the printing of the intro message. -/
def isIntroEvent : Event → Bool
  | .printIntro _ => true
  | _ => false

/-- `teardown_history` makes exactly one save call, with the file and the
size read from the ambient configuration at call time. -/
theorem teardown_saveCalls (env : Env) (h : HistoryObj)
    (sr : Option FsError) :
    (teardown_history env h sr).saveCalls = [⟨env.histFile, env.histSize.1⟩] := by
  rcases sr with _ | e
  · rfl
  · cases e <;> rfl

/-- One loop iteration neither prints the intro nor truncates the event
trace: the prior trace is a prefix of the new one and the number of
intro-print events is unchanged. -/
theorem runIter_intro_invariant (i : IterInput) (st : LoopState) :
    ((runIter i st).1.events).countP (fun e => isIntroEvent e) =
      st.events.countP (fun e => isIntroEvent e) ∧
    st.events <+: (runIter i st).1.events := by
  obtain ⟨r, emp, p, d, x⟩ := i
  cases r with
  | exc e =>
    cases e <;>
      simp [runIter, tryBody, List.countP_append, isIntroEvent,
        List.prefix_append]
  | ok line =>
    by_cases hl : line = ""
    · subst hl
      cases emp with
      | ok u =>
        simp [runIter, tryBody, List.countP_append, isIntroEvent,
          List.prefix_append]
      | exc e =>
        cases e <;>
          simp [runIter, tryBody, List.countP_append, isIntroEvent,
            List.prefix_append]
    · cases p with
      | exc e =>
        cases e <;>
          simp [runIter, tryBody, hl, List.countP_append, isIntroEvent,
            List.prefix_append]
      | ok l2 =>
        cases d with
        | ok u =>
          simp [runIter, tryBody, hl, List.countP_append, isIntroEvent,
            List.prefix_append]
        | exc e =>
          cases e <;>
            simp [runIter, tryBody, hl, List.countP_append, isIntroEvent,
              List.prefix_append]

/-- The read loop neither prints the intro nor truncates the event trace. -/
theorem cmdloopAux_intro_invariant : ∀ (inputs : List IterInput)
    (st : LoopState),
    (((cmdloopAux inputs st).1.events).countP (fun e => isIntroEvent e) =
      st.events.countP (fun e => isIntroEvent e)) ∧
    st.events <+: (cmdloopAux inputs st).1.events
  | [], st => by
    by_cases h1 : st.terminated <;> by_cases h2 : st.exitFlag <;>
      simp [cmdloopAux, h1, h2]
  | i :: rest, st => by
    by_cases h1 : st.terminated
    · simp [cmdloopAux, h1]
    · by_cases h2 : st.exitFlag
      · simp [cmdloopAux, h1, h2]
      · have hri := runIter_intro_invariant i st
        rcases hst2 : runIter i st with ⟨st2, e?⟩
        rw [hst2] at hri
        rcases e? with _ | e
        · by_cases h3 : st2.terminated
          · simp only [cmdloopAux, h1, h2, hst2, h3]
            simpa using hri
          · have ih := cmdloopAux_intro_invariant rest st2
            constructor
            · simp only [cmdloopAux, h1, h2, hst2, h3]
              simpa [ih.1] using hri.1
            · simp only [cmdloopAux, h1, h2, hst2, h3]
              simpa using hri.2.trans ih.2
        · simp only [cmdloopAux, h1, h2, hst2]
          simpa using hri

/-- Once the exit flag is set, the loop exits at the next iteration
boundary, whatever further inputs the script holds. -/
theorem cmdloopAux_exits_when_flag_set (inputs : List IterInput)
    (st : LoopState) (hterm : st.terminated = false)
    (hexit : st.exitFlag = true) :
    cmdloopAux inputs st = ({ st with terminated := true }, none) := by
  obtain ⟨f, t, h, ev⟩ := st
  simp only at hterm hexit
  subst hterm hexit
  cases inputs <;> simp [cmdloopAux]

/-! ## Claim theorems -/

/-- C1: a `KeyboardInterrupt` raised while the loop is blocked in
`get_input` is caught and converted into a `reset_buffer` call; the
interrupt never propagates out of `cmdloop` (the exception component is
`none`), the history store is unchanged, the loop state is not
`Terminated`, and the loop continues with the next iteration. -/
theorem interrupt_resets_buffer_and_continues (i : IterInput)
    (rest : List IterInput) (st : LoopState)
    (hterm : st.terminated = false) (hexit : st.exitFlag = false)
    (hread : i.read = .exc .keyboardInterrupt) :
    runIter i st =
      ({ st with events := st.events ++ [Event.readCall, Event.resetBuffer] },
       none)
    ∧ (runIter i st).1.history = st.history
    ∧ (runIter i st).1.terminated = false
    ∧ cmdloopAux (i :: rest) st =
        cmdloopAux rest
          { st with events := st.events ++ [Event.readCall, Event.resetBuffer] } := by
  obtain ⟨r, emp, p, d, x⟩ := i
  obtain ⟨f, t, h, ev⟩ := st
  simp only at hterm hexit hread
  subst hterm hexit hread
  refine ⟨?_, ?_, ?_, ?_⟩ <;>
    simp [cmdloopAux, runIter, tryBody]

/-- C1 witness. -/
theorem interrupt_resets_buffer_and_continues_witness :
    runIter ⟨.exc .keyboardInterrupt, .ok (), .ok "", .ok (), false⟩
        (initState ["old"]) =
      ({ initState ["old"] with
          events := (initState ["old"]).events ++
            [Event.readCall, Event.resetBuffer] }, none)
    ∧ (runIter ⟨.exc .keyboardInterrupt, .ok (), .ok "", .ok (), false⟩
        (initState ["old"])).1.history = (initState ["old"]).history
    ∧ (runIter ⟨.exc .keyboardInterrupt, .ok (), .ok "", .ok (), false⟩
        (initState ["old"])).1.terminated = false
    ∧ cmdloopAux [⟨.exc .keyboardInterrupt, .ok (), .ok "", .ok (), false⟩]
        (initState ["old"]) =
      cmdloopAux []
        { initState ["old"] with
          events := (initState ["old"]).events ++
            [Event.readCall, Event.resetBuffer] } :=
  interrupt_resets_buffer_and_continues _ [] _ rfl rfl rfl

/-- C2: an `EOFError` raised while the loop is blocked in `get_input` is
caught and converted into loop termination (no exception propagates), and
destroying the shell afterwards makes exactly one save call on the
history file. -/
theorem eof_terminates_loop_and_saves_once (i : IterInput)
    (rest : List IterInput) (st : LoopState) (hist0 : List String)
    (env : Env) (sr : Option FsError)
    (hterm : st.terminated = false) (hexit : st.exitFlag = false)
    (hread : i.read = .exc .eofError) :
    cmdloopAux (i :: rest) st =
      ({ st with terminated := true,
                 events := st.events ++ [Event.readCall] }, none)
    ∧ (runSessionAndDestroy none (i :: rest) hist0 env sr).1.2 = none
    ∧ (runSessionAndDestroy none (i :: rest) hist0 env sr).1.1.terminated = true
    ∧ (runSessionAndDestroy none (i :: rest) hist0 env sr).2.saveCalls =
        [⟨env.histFile, env.histSize.1⟩] := by
  obtain ⟨r, emp, p, d, x⟩ := i
  simp only at hread
  subst hread
  have hloop : ∀ st' : LoopState, st'.terminated = false →
      st'.exitFlag = false →
      cmdloopAux ((⟨Outcome.exc Exc.eofError, emp, p, d, x⟩ : IterInput)
          :: rest) st' =
        (⟨st'.exitFlag, true, st'.history,
          st'.events ++ [Event.readCall]⟩, none) := by
    intro st' h1 h2
    obtain ⟨f, t, h, ev⟩ := st'
    simp only at h1 h2
    subst h1 h2
    simp [cmdloopAux, runIter, tryBody]
  refine ⟨hloop st hterm hexit, ?_, ?_, ?_⟩
  · simp [runSessionAndDestroy, cmdloop, hloop (initState hist0) rfl rfl]
  · simp [runSessionAndDestroy, cmdloop, hloop (initState hist0) rfl rfl]
  · simp [runSessionAndDestroy, cmdloop, del_shell, teardown_saveCalls]

/-- C2 witness. -/
theorem eof_terminates_loop_and_saves_once_witness :
    cmdloopAux [⟨.exc .eofError, .ok (), .ok "", .ok (), false⟩]
        (initState []) =
      (⟨false, true, [], [Event.readCall]⟩, none)
    ∧ (runSessionAndDestroy none
        [⟨.exc .eofError, .ok (), .ok "", .ok (), false⟩] [] ⟨"hf", 50, "c"⟩
        none).1.2 = none
    ∧ (runSessionAndDestroy none
        [⟨.exc .eofError, .ok (), .ok "", .ok (), false⟩] [] ⟨"hf", 50, "c"⟩
        none).1.1.terminated = true
    ∧ (runSessionAndDestroy none
        [⟨.exc .eofError, .ok (), .ok "", .ok (), false⟩] [] ⟨"hf", 50, "c"⟩
        none).2.saveCalls = [⟨"hf", 50⟩] :=
  eof_terminates_loop_and_saves_once _ [] (initState []) [] ⟨"hf", 50, "c"⟩
    none rfl rfl rfl

/-- C3: on a line returned by the blocking read, the loop dispatches — an
empty line invokes only `emptyline` (no history append, no executor
call); a non-empty line is appended to history by the widget, passed
through `precmd`, and handed to `default` exactly once with the
transformed line, after which the loop returns to the next read. -/
theorem dispatch_empty_and_nonempty_lines (i : IterInput) (st : LoopState)
    (line : String) (hread : i.read = .ok line) :
    (line = "" → ∀ u : Unit, i.emptyline = .ok u →
      runIter i st =
        ({ st with events := st.events ++
            [Event.readCall, Event.emptylineCall] }, none))
    ∧ (line ≠ "" → ∀ l2, i.precmd = .ok l2 → i.defaultOut = .ok () →
        runIter i st =
          ({ st with
              history := st.history ++ [line],
              exitFlag := st.exitFlag || i.defaultSetsExit,
              events := st.events ++ [Event.readCall, Event.histAppend line,
                Event.precmdCall line, Event.defaultCall l2] }, none))
    ∧ (∀ rest, line ≠ "" → ∀ l2, i.precmd = .ok l2 → i.defaultOut = .ok () →
        i.defaultSetsExit = false → st.terminated = false →
        st.exitFlag = false →
        cmdloopAux (i :: rest) st =
          cmdloopAux rest
            { st with
                history := st.history ++ [line],
                events := st.events ++ [Event.readCall, Event.histAppend line,
                  Event.precmdCall line, Event.defaultCall l2] }) := by
  obtain ⟨r, emp, p, d, x⟩ := i
  obtain ⟨f, t, h, ev⟩ := st
  simp only at hread
  subst hread
  refine ⟨?_, ?_, ?_⟩
  · rintro rfl u hemp
    simp only at hemp
    subst hemp
    simp [runIter, tryBody]
  · intro hne l2 hp hd
    simp only at hp hd
    subst hp hd
    simp [runIter, tryBody, hne]
  · rintro rest hne l2 hp hd hx h1 h2
    simp only at hp hd hx h1 h2
    subst hp hd hx h1 h2
    simp [cmdloopAux, runIter, tryBody, hne]

/-- C3 witness. -/
theorem dispatch_empty_and_nonempty_lines_witness :
    (runIter ⟨.ok "", .ok (), .ok "", .ok (), false⟩ (initState []) =
      ({ initState [] with events := (initState []).events ++
          [Event.readCall, Event.emptylineCall] }, none))
    ∧ (runIter ⟨.ok "echo hi", .ok (), .ok "echo hi2", .ok (), false⟩
        (initState []) =
      ({ initState [] with
          history := (initState []).history ++ ["echo hi"],
          exitFlag := (initState []).exitFlag || false,
          events := (initState []).events ++
            [Event.readCall, Event.histAppend "echo hi",
             Event.precmdCall "echo hi", Event.defaultCall "echo hi2"] },
       none)) :=
  ⟨(dispatch_empty_and_nonempty_lines
      ⟨.ok "", .ok (), .ok "", .ok (), false⟩ (initState []) "" rfl).1
      rfl () rfl,
   (dispatch_empty_and_nonempty_lines
      ⟨.ok "echo hi", .ok (), .ok "echo hi2", .ok (), false⟩ (initState [])
      "echo hi" rfl).2.1 (by decide) "echo hi2" rfl rfl⟩

/-- C4: the effective style table is the three-layer merge — built-in
defaults, then the per-prompt token styles overlaid unconditionally, then
the user mapping overlaid token-by-token; an absent user mapping is
skipped with no error, and a partial user mapping only overrides the
tokens it names.  For a prompt supplying `A ↦ x, B ↦ y` and a user
override `A ↦ z`, the result maps `A` to `z`, `B` to `y`, and every
built-in token named by neither layer keeps its default. -/
theorem style_table_three_layer_merge (A B x y z : String) (hAB : A ≠ B) :
    (∀ tokens cstyles, customStyle tokens cstyles none =
        dictUpdate baseStyleDict (List.zip tokens cstyles))
    ∧ (∀ tokens cstyles u t, lookupLast u t = none →
        customStyle tokens cstyles (some u) t =
          customStyle tokens cstyles none t)
    ∧ customStyle [A, B] [x, y] (some [(A, z)]) A = some z
    ∧ customStyle [A, B] [x, y] (some [(A, z)]) B = some y
    ∧ (∀ t v, lookupLast builtinStyles t = some v → t ≠ A → t ≠ B →
        customStyle [A, B] [x, y] (some [(A, z)]) t = some v) := by
  refine ⟨fun tokens cstyles => rfl, ?_, ?_, ?_, ?_⟩
  · intro tokens cstyles u t hu
    simp [customStyle, dictUpdate, hu]
  · simp [customStyle, dictUpdate, lookupLast]
  · simp [customStyle, dictUpdate, lookupLast, hAB]
  · intro t v hv hA hB
    have h1 : lookupLast [(A, z)] t = none := by
      simp [lookupLast, Ne.symm hA]
    have h2 : lookupLast [(A, x), (B, y)] t = none := by
      simp [lookupLast, Ne.symm hA, Ne.symm hB]
    have hz : List.zip [A, B] [x, y] = [(A, x), (B, y)] := rfl
    simp only [customStyle, dictUpdate, hz, h1, h2]
    simpa [baseStyleDict] using hv

/-- C4 witness. -/
theorem style_table_three_layer_merge_witness :
    customStyle ["A", "B"] ["x", "y"] (some [("A", "z")]) "A" = some "z"
    ∧ customStyle ["A", "B"] ["x", "y"] (some [("A", "z")]) "B" = some "y"
    ∧ customStyle ["A", "B"] ["x", "y"] (some [("A", "z")]) "Toolbar" =
        some "bg:#222222 #cccccc" :=
  have h := style_table_three_layer_merge "A" "B" "x" "y" "z" (by decide)
  ⟨h.2.2.1, h.2.2.2.1,
   h.2.2.2.2 "Toolbar" "bg:#222222 #cccccc" (by decide) (by decide)
     (by decide)⟩

/-- C5: a permission failure on the history file is a non-fatal warning:
a read-permission error during `setup_history` still completes setup with
an empty in-memory sequence and a warning; a write-permission error
during `teardown_history` emits a warning, never propagates, and leaves
the in-memory sequence as-is. -/
theorem permission_failures_are_nonfatal_warnings (env : Env)
    (h : HistoryObj) :
    setup_history env (.error .permissionError) =
      ⟨some ⟨[]⟩, ["do not have read permissions for " ++ env.histFile],
       none⟩
    ∧ teardown_history env h (some .permissionError) =
      ⟨[⟨env.histFile, env.histSize.1⟩], h,
       ["do not have write permissions for " ++ env.histFile], none⟩ :=
  ⟨rfl, rfl⟩

/-- C6: the history size bound used by `save` is the `XONSH_HISTORY_SIZE`
read from the configuration at save time: loading under one configuration
and tearing down under another passes the teardown-time size (and file)
to the save call. -/
theorem teardown_uses_save_time_history_size (loadEnv saveEnv : Env)
    (lines : List String) (sr : Option FsError)
    (_hne : loadEnv.histSize.1 ≠ saveEnv.histSize.1) :
    (load_then_save loadEnv saveEnv lines sr).saveCalls =
      [⟨saveEnv.histFile, saveEnv.histSize.1⟩] := by
  have h := teardown_saveCalls saveEnv ⟨lines⟩ sr
  simpa [load_then_save, setup_history] using h

/-- C6 witness. -/
theorem teardown_uses_save_time_history_size_witness :
    ("x" : String) ≠ "hf2" ∧ (50 : Nat) ≠ 100
    ∧ (load_then_save ⟨"hf", 50, "commands"⟩ ⟨"hf", 100, "commands"⟩
        ["a", "b"] none).saveCalls = [⟨"hf", 100⟩] :=
  ⟨by decide, by decide,
   teardown_uses_save_time_history_size ⟨"hf", 50, "commands"⟩
     ⟨"hf", 100, "commands"⟩ ["a", "b"] none (by decide)⟩

/-- C7: the external exit-requested flag is re-checked before every
iteration: once set, the loop exits at the next iteration boundary
whatever further inputs exist; in particular, when the executed command
of an iteration sets the flag, no further iteration begins. -/
theorem exit_flag_rechecked_every_iteration :
    (∀ (inputs : List IterInput) (st : LoopState), st.terminated = false →
      st.exitFlag = true →
      cmdloopAux inputs st = ({ st with terminated := true }, none))
    ∧ (∀ (i : IterInput) (rest : List IterInput) (st : LoopState)
        (line l2 : String), st.terminated = false → st.exitFlag = false →
        i.read = .ok line → line ≠ "" → i.precmd = .ok l2 →
        i.defaultOut = .ok () → i.defaultSetsExit = true →
        cmdloopAux (i :: rest) st =
          (⟨true, true, st.history ++ [line],
            st.events ++ [Event.readCall, Event.histAppend line,
              Event.precmdCall line, Event.defaultCall l2]⟩, none)) := by
  refine ⟨fun inputs st h1 h2 => cmdloopAux_exits_when_flag_set inputs st h1 h2, ?_⟩
  intro i rest st line l2 h1 h2 hread hne hp hd hx
  obtain ⟨r, emp, p, d, xx⟩ := i
  obtain ⟨f, t, h, ev⟩ := st
  simp only at h1 h2 hread hp hd hx
  subst h1 h2 hread hp hd hx
  have hstep : cmdloopAux ((⟨Outcome.ok line, emp, Outcome.ok l2,
      Outcome.ok (), true⟩ : IterInput) :: rest)
      (⟨false, false, h, ev⟩ : LoopState) =
      cmdloopAux rest (⟨true, false, h ++ [line],
        ev ++ [Event.readCall, Event.histAppend line,
          Event.precmdCall line, Event.defaultCall l2]⟩ : LoopState) := by
    simp [cmdloopAux, runIter, tryBody, hne]
  rw [hstep, cmdloopAux_exits_when_flag_set rest _ rfl rfl]

/-- C7 witness. -/
theorem exit_flag_rechecked_every_iteration_witness :
    cmdloopAux
        [⟨.ok "exit", .ok (), .ok "exit", .ok (), true⟩,
         ⟨.ok "after", .ok (), .ok "after", .ok (), false⟩]
        (initState []) =
      (⟨true, true, ["exit"],
        [Event.readCall, Event.histAppend "exit", Event.precmdCall "exit",
         Event.defaultCall "exit"]⟩, none) :=
  exit_flag_rechecked_every_iteration.2
    ⟨.ok "exit", .ok (), .ok "exit", .ok (), true⟩
    [⟨.ok "after", .ok (), .ok "after", .ok (), false⟩]
    (initState []) "exit" "exit" rfl rfl rfl (by decide) rfl rfl rfl

/-- C8: the introductory message has print-once semantics: over a whole
`cmdloop` run the intro is printed at most once, before the first read,
and only when a truthy (non-`None`, non-empty) intro was supplied; no
later iteration prints it again — the event trace is the intro events
followed by a tail containing no intro-print event. -/
theorem intro_printed_once_before_first_read (intro : Option String)
    (inputs : List IterInput) (st : LoopState) (h0 : st.events = []) :
    ∃ tail,
      (cmdloop intro inputs st).1.events =
        (match intro with
         | some s => if s = "" then [] else [Event.printIntro s]
         | none => []) ++ tail
      ∧ tail.countP (fun e => isIntroEvent e) = 0 := by
  rcases intro with _ | s
  · have h := cmdloopAux_intro_invariant inputs st
    rw [h0] at h
    obtain ⟨tail, htail⟩ := h.2
    refine ⟨tail, ?_, ?_⟩
    · simpa [cmdloop] using htail.symm
    · have hc := h.1
      rw [← htail] at hc
      simpa using hc
  · by_cases hs : s = ""
    · subst hs
      have h := cmdloopAux_intro_invariant inputs st
      rw [h0] at h
      obtain ⟨tail, htail⟩ := h.2
      refine ⟨tail, ?_, ?_⟩
      · simpa [cmdloop] using htail.symm
      · have hc := h.1
        rw [← htail] at hc
        simpa using hc
    · have h := cmdloopAux_intro_invariant inputs
        { st with events := st.events ++ [Event.printIntro s] }
      have hev : ({ st with events := st.events ++ [Event.printIntro s] } :
          LoopState).events = [Event.printIntro s] := by simp [h0]
      rw [hev] at h
      obtain ⟨tail, htail⟩ := h.2
      refine ⟨tail, ?_, ?_⟩
      · have hcl : cmdloop (some s) inputs st =
            cmdloopAux inputs
              { st with events := st.events ++ [Event.printIntro s] } := by
          simp [cmdloop, hs]
        rw [hcl, ← htail]
        simp [hs]
      · have hc := h.1
        rw [← htail, List.countP_append] at hc
        omega

/-- C8 witness. -/
theorem intro_printed_once_before_first_read_witness :
    ∃ tail,
      (cmdloop (some "hi") [⟨.ok "l", .ok (), .ok "l", .ok (), false⟩]
          (initState [])).1.events =
        (match (some "hi" : Option String) with
         | some s => if s = "" then [] else [Event.printIntro s]
         | none => []) ++ tail
      ∧ tail.countP (fun e => isIntroEvent e) = 0 :=
  intro_printed_once_before_first_read (some "hi")
    [⟨.ok "l", .ok (), .ok "l", .ok (), false⟩] (initState []) rfl

/-- C9: the `except` clauses cover the whole loop body, not only the
blocking read: a `KeyboardInterrupt` raised by `precmd` or by `default`
is also caught and converted into a buffer reset with the loop not
terminated, and an `EOFError` raised by `precmd` or by `default` also
terminates the loop rather than propagating. -/
theorem handlers_cover_dispatch_phase (i : IterInput) (st : LoopState)
    (line : String) (hread : i.read = .ok line) (hne : line ≠ "") :
    (i.precmd = .exc .keyboardInterrupt →
      runIter i st =
        (⟨st.exitFlag, st.terminated, st.history ++ [line],
          st.events ++ [Event.readCall, Event.histAppend line,
            Event.precmdCall line, Event.resetBuffer]⟩, none))
    ∧ (i.precmd = .exc .eofError →
      runIter i st =
        (⟨st.exitFlag, true, st.history ++ [line],
          st.events ++ [Event.readCall, Event.histAppend line,
            Event.precmdCall line]⟩, none))
    ∧ (∀ l2, i.precmd = .ok l2 → i.defaultOut = .exc .keyboardInterrupt →
        runIter i st =
          (⟨st.exitFlag || i.defaultSetsExit, st.terminated,
            st.history ++ [line],
            st.events ++ [Event.readCall, Event.histAppend line,
              Event.precmdCall line, Event.defaultCall l2,
              Event.resetBuffer]⟩, none))
    ∧ (∀ l2, i.precmd = .ok l2 → i.defaultOut = .exc .eofError →
        runIter i st =
          (⟨st.exitFlag || i.defaultSetsExit, true, st.history ++ [line],
            st.events ++ [Event.readCall, Event.histAppend line,
              Event.precmdCall line, Event.defaultCall l2]⟩, none)) := by
  obtain ⟨r, emp, p, d, x⟩ := i
  obtain ⟨f, t, h, ev⟩ := st
  simp only at hread
  subst hread
  refine ⟨?_, ?_, ?_, ?_⟩
  · intro hp
    simp only at hp
    subst hp
    simp [runIter, tryBody, hne]
  · intro hp
    simp only at hp
    subst hp
    simp [runIter, tryBody, hne]
  · intro l2 hp hd
    simp only at hp hd
    subst hp hd
    simp [runIter, tryBody, hne]
  · intro l2 hp hd
    simp only at hp hd
    subst hp hd
    simp [runIter, tryBody, hne]

/-- C9 witness. -/
theorem handlers_cover_dispatch_phase_witness :
    (runIter ⟨.ok "ls", .ok (), .exc .keyboardInterrupt, .ok (), false⟩
        (initState []) =
      (⟨false, false, ["ls"],
        [Event.readCall, Event.histAppend "ls", Event.precmdCall "ls",
         Event.resetBuffer]⟩, none))
    ∧ (runIter ⟨.ok "ls", .ok (), .ok "ls", .exc .eofError, false⟩
        (initState []) =
      (⟨false || false, true, ["ls"],
        [Event.readCall, Event.histAppend "ls", Event.precmdCall "ls",
         Event.defaultCall "ls"]⟩, none)) :=
  ⟨(handlers_cover_dispatch_phase
      ⟨.ok "ls", .ok (), .exc .keyboardInterrupt, .ok (), false⟩
      (initState []) "ls" rfl (by decide)).1 rfl,
   (handlers_cover_dispatch_phase
      ⟨.ok "ls", .ok (), .ok "ls", .exc .eofError, false⟩
      (initState []) "ls" rfl (by decide)).2.2.2 "ls" rfl rfl⟩

/-- C10: the prompt-token producer returned by
`_get_prompt_tokens_and_style` is a constant function: it ignores its
`cli` argument and always returns the `(token, text)` list
`zip tokens strings` fixed when the producer was built. -/
theorem prompt_token_producer_is_constant {α : Type}
    (token_names cstyles strings : List String)
    (userstyle : Option (List (Tok × String))) (c1 c2 : α) :
    (get_prompt_tokens_and_style token_names cstyles strings
        userstyle).1 c1 =
      (get_prompt_tokens_and_style token_names cstyles strings
        userstyle).1 c2
    ∧ (get_prompt_tokens_and_style token_names cstyles strings
        userstyle).1 c1 = List.zip token_names strings :=
  ⟨rfl, rfl⟩

end PromptToolkitShell
